import Mathlib

/-!
Verification of the threads-toolkit core against its specification.

The TypeScript source is shallowly embedded: strings are modelled as
`List Char` (JavaScript string primitives such as `trim`, `toLowerCase`,
`includes` and the regex scans used by the source are implemented as
executable Lean functions), machine numbers as `Nat`/`Int`, promises and
thrown errors as explicit outcome values, and the batch scheduler as a
small-step relation on scheduler states.
-/

/-! ## JavaScript string primitives over `List Char` -/

/-- JavaScript whitespace characters relevant to `String.prototype.trim`
and the `\s` regex class (ASCII whitespace plus NBSP and ideographic space). -/
def isJsWs (c : Char) : Bool :=
  c == ' ' || c == '\t' || c == '\n' || c == '\r' || c == '\x0b' || c == '\x0c' ||
  c == ' ' || c == '　'

/-- Drop leading JS whitespace. -/
def trimLeftJs (s : List Char) : List Char := s.dropWhile isJsWs

/-- Drop trailing JS whitespace. -/
def trimRightJs (s : List Char) : List Char := (s.reverse.dropWhile isJsWs).reverse

/-- JavaScript `String.prototype.trim`. -/
def trimJs (s : List Char) : List Char := trimRightJs (trimLeftJs s)

/-- JavaScript `String.prototype.toLowerCase` (ASCII letters; CJK text is unchanged,
matching the behaviour on the pattern sets used by the source). -/
def lowerJs (s : List Char) : List Char := s.map Char.toLower

/-- JavaScript `String.prototype.includes`: `sub` occurs contiguously in the string. -/
def containsSub (sub : List Char) : List Char → Bool
  | [] => sub.isEmpty
  | c :: rest => sub.isPrefixOf (c :: rest) || containsSub sub rest

/-- Numeric value of a run of decimal digits (JS `parseInt` on an all-digit string;
the empty run yields 0, standing for the `parseInt(..) || 0` fallback). -/
def digitsToNat (ds : List Char) : Nat :=
  ds.foldl (fun acc c => 10 * acc + (c.toNat - '0'.toNat)) 0

/-! ## Record validation (src/utils/page-helpers.ts, validatePost / validateProfile) -/

/-- The author sub-record of a post, as used by `validatePost`. -/
structure AuthorRec where
  username : String
  displayName : String
deriving DecidableEq

/-- The fields of `ThreadsPost` consulted by `validatePost`. -/
structure PostRecord where
  content : String
  author : AuthorRec
  timestamp : String
deriving DecidableEq

/-- Result shape `{ valid, reason? }` of `validatePost`. -/
structure PostValidation where
  valid : Bool
  reason : Option String
deriving DecidableEq

/-- `validatePost` from src/utils/page-helpers.ts: rejects a post whose content is
falsy or shorter than 3 characters, whose author username is falsy or the
`unknown` sentinel, or whose timestamp is falsy. -/
def validatePost (post : PostRecord) : PostValidation :=
  if post.content = "" ∨ post.content.length < 3 then ⟨false, some "noContent"⟩
  else if post.author.username = "" ∨ post.author.username = "unknown" then
    ⟨false, some "noAuthor"⟩
  else if post.timestamp = "" then ⟨false, some "noTimestamp"⟩
  else ⟨true, none⟩

/-- The fields of `ProfileData` consulted by `validateProfile`. Optional string
fields are `Option String` (`none` models both `undefined` and `null`; `some ""`
is a present-but-empty string, which is still falsy for the `!x` checks). -/
structure ProfileRecord where
  username : String
  displayName : String
  avatarUrl : Option String
  bio : Option String
  followersCount : Option Nat
  location : Option String
  joinedDate : Option String
deriving DecidableEq

/-- Result shape `{ valid, reason?, partial?, missing? }` of `validateProfile`.
The source's boolean completeness flag is called `incomplete` here because its
source name is a Lean keyword. -/
structure ProfileValidation where
  valid : Bool
  reason : Option String
  incomplete : Option Bool
  missing : Option (List String)
deriving DecidableEq

/-- JS falsiness of an optional string: `undefined`, `null` or `""`. -/
def jsFalsy (o : Option String) : Bool :=
  match o with
  | none => true
  | some s => s = ""

/-- The `missing` accumulator of `validateProfile`, in source push order.
`location` and `joinedDate` are missing exactly when `null`/`undefined` (an
explicit `=== null || === undefined` check in the source), the other optional
fields when falsy. -/
def profileMissing (profile : ProfileRecord) : List String :=
  (if profile.displayName = "" then ["displayName"] else []) ++
  (if jsFalsy profile.avatarUrl then ["avatarUrl"] else []) ++
  (if profile.followersCount = none then ["followersCount"] else []) ++
  (if jsFalsy profile.bio then ["bio"] else []) ++
  (if profile.location = none then ["location"] else []) ++
  (if profile.joinedDate = none then ["joinedDate"] else [])

/-- `validateProfile` from src/utils/page-helpers.ts: invalid only without a
username; otherwise valid, listing absent optional fields and flagging
partiality when any is absent. -/
def validateProfile (profile : ProfileRecord) : ProfileValidation :=
  if profile.username = "" then ⟨false, some "noUsername", none, none⟩
  else
    let missing : List String := profileMissing profile
    ⟨true, none, some (decide (0 < missing.length)), some missing⟩

/-! ## Retry policy (src/utils/page-helpers.ts, withRateLimitRetry) -/

/-- Outcome of one invocation of the wrapped operation: resolve with a value,
throw a `RateLimitError`, or throw any other error. -/
inductive FnOutcome (α : Type) where
  | success : α → FnOutcome α
  | rateLimited : String → FnOutcome α
  | failure : String → FnOutcome α
deriving DecidableEq

/-- `RateLimitConfig` with all fields present (`Required<RateLimitConfig>`). -/
structure RateLimitConfig where
  requestDelay : Nat
  maxRetries : Nat
  backoffDelay : Nat
  backoffMultiplier : Nat
deriving DecidableEq

/-- `DEFAULT_RATE_LIMIT_CONFIG` from src/utils/page-helpers.ts. -/
def DEFAULT_RATE_LIMIT_CONFIG : RateLimitConfig :=
  { requestDelay := 1000, maxRetries := 3, backoffDelay := 5000, backoffMultiplier := 2 }

/-- Observable trace of `withRateLimitRetry`: the final outcome, the sequence of
sleep durations performed (in order), and the attempt indices at which the
operation was invoked (in order). -/
structure RetryTrace (α : Type) where
  result : FnOutcome α
  delays : List Nat
  attempts : List Nat
deriving DecidableEq

/-- The retry loop of `withRateLimitRetry`, started at a given attempt index.
The operation is modelled as a function from the attempt index to its outcome.
On success or a non-rate-limit error the loop returns at once; on a rate-limit
error with `attempt < maxRetries` it sleeps `backoffDelay * backoffMultiplier ^
attempt` and retries; otherwise the loop ends and the last rate-limit error is
rethrown. -/
def withRateLimitRetryFrom {α : Type} (fn : Nat → FnOutcome α) (config : RateLimitConfig)
    (attempt : Nat) : RetryTrace α :=
  match fn attempt with
  | .success v => ⟨.success v, [], [attempt]⟩
  | .failure e => ⟨.failure e, [], [attempt]⟩
  | .rateLimited e =>
    if h : attempt < config.maxRetries then
      let delay := config.backoffDelay * config.backoffMultiplier ^ attempt
      let rest := withRateLimitRetryFrom fn config (attempt + 1)
      ⟨rest.result, delay :: rest.delays, attempt :: rest.attempts⟩
    else ⟨.rateLimited e, [], [attempt]⟩
termination_by config.maxRetries - attempt
decreasing_by omega

/-- `withRateLimitRetry` from src/utils/page-helpers.ts (the loop starts at
attempt index 0). -/
def withRateLimitRetry {α : Type} (fn : Nat → FnOutcome α) (config : RateLimitConfig) :
    RetryTrace α :=
  withRateLimitRetryFrom fn config 0

/-! ## Scroll engine, cumulative seen-set (src/utils/page-helpers.ts, scrollForPosts) -/

/-- Cumulative seen-set of the scroll engine: each cycle's freshly collected ID
set is merged into the running set (`currentIds.forEach(id => seenPostIds.add(id))`). -/
def scrollSeen (cycles : List (Finset String)) : Finset String :=
  cycles.foldl (fun seen ids => seen ∪ ids) ∅

/-- State carried across scroll cycles by `scrollForPosts`. -/
structure ScrollState where
  seen : Finset String
  noNewContentCount : Nat
  attempt : Nat
deriving DecidableEq

/-- Environment of one scroll session: the IDs present in the DOM when cycle `k`
collects them, and the elapsed wall-clock milliseconds at the timeout check of
cycle `k`. -/
structure ScrollEnv where
  idsAt : Nat → Finset String
  elapsedAt : Nat → Nat

/-- Why the scroll loop stopped. -/
inductive ScrollStop where
  | noProgress
  | attemptCap
  | timeout
  | enoughPosts
deriving DecidableEq

/-- `maxAttempts = Math.min(20, Math.ceil(maxItems / 5) + 5)`. -/
def maxAttemptsFor (maxItems : Nat) : Nat := min 20 ((maxItems + 4) / 5 + 5)

/-- `MAX_NO_NEW_CONTENT` from `scrollForPosts`. -/
def MAX_NO_NEW_CONTENT : Nat := 4

/-- `GLOBAL_TIMEOUT` (milliseconds) from `scrollForPosts`. -/
def GLOBAL_TIMEOUT : Nat := 45000

/-- One scroll cycle body: merge the cycle's IDs into the cumulative set,
increment the no-progress counter if the set size did not change and reset it
otherwise, and advance the attempt counter. -/
def scrollStep (env : ScrollEnv) (st : ScrollState) : ScrollState :=
  let seen' := st.seen ∪ env.idsAt st.attempt
  { seen := seen'
    noNewContentCount := if seen'.card = st.seen.card then st.noNewContentCount + 1 else 0
    attempt := st.attempt + 1 }

/-- The scroll loop of `scrollForPosts`, from an arbitrary state: the `for` loop
guard `i < maxAttempts && noNewContentCount < MAX_NO_NEW_CONTENT` is checked
first (with the source's short-circuit order deciding which cause ended the
loop), then the global timeout, then a cycle body runs, and the loop breaks
early when the cumulative size reaches `maxItems * 1.5` (expressed integrally
as `3 * maxItems ≤ 2 * size`). -/
def scrollLoopFrom (env : ScrollEnv) (maxItems : Nat) (st : ScrollState) :
    ScrollState × ScrollStop :=
  if h : st.attempt < maxAttemptsFor maxItems ∧ st.noNewContentCount < MAX_NO_NEW_CONTENT then
    if GLOBAL_TIMEOUT < env.elapsedAt st.attempt then (st, .timeout)
    else
      let st' := scrollStep env st
      if 3 * maxItems ≤ 2 * st'.seen.card then (st', .enoughPosts)
      else scrollLoopFrom env maxItems st'
  else (st, if st.attempt < maxAttemptsFor maxItems then .noProgress else .attemptCap)
termination_by maxAttemptsFor maxItems - st.attempt
decreasing_by simp only [scrollStep]; omega

/-- `scrollForPosts`: run the scroll loop from the initial session state
(empty seen-set, zeroed counters). -/
def scrollForPosts (env : ScrollEnv) (maxItems : Nat) : ScrollState × ScrollStop :=
  scrollLoopFrom env maxItems ⟨∅, 0, 0⟩

/-! ## Stat number parsing (src/utils/selectors.ts, parseStatNumber) -/

/-- Character class `[\d,]` of the stat-number regex. -/
def isDigitOrComma (c : Char) : Bool := c.isDigit || c == ','

/-- The (cannot-fail) tail of the regex `[\d,]+\.?\d*[KkMm]?` once a starting
character has matched: greedy run of digits/commas, an optional decimal point
followed by a greedy digit run, and an optional K/M suffix. -/
def statMatchHere (l : List Char) : List Char :=
  let a := l.takeWhile isDigitOrComma
  let r1 := l.dropWhile isDigitOrComma
  let dotPart : List Char × List Char :=
    match r1 with
    | '.' :: r => (['.'] ++ r.takeWhile Char.isDigit, r.dropWhile Char.isDigit)
    | _ => ([], r1)
  let suf : List Char :=
    match dotPart.2 with
    | k :: _ => if k == 'K' || k == 'k' || k == 'M' || k == 'm' then [k] else []
    | [] => []
  a ++ dotPart.1 ++ suf

/-- Leftmost match of `text.match(/[\d,]+\.?\d*[KkMm]?/)`: scan for the first
digit-or-comma character and match greedily there. -/
def statScan : List Char → Option (List Char)
  | [] => none
  | c :: rest =>
    if isDigitOrComma c then some (statMatchHere (c :: rest))
    else statScan rest

/-- JS `parseFloat` on the cleaned match (shape: digits, optional `.digits`):
`none` models `NaN`; otherwise the mantissa digits as a natural number together
with the number of decimal places. -/
def floatValOf (l : List Char) : Option (Nat × Nat) :=
  let a := l.takeWhile Char.isDigit
  let r := l.dropWhile Char.isDigit
  match r with
  | '.' :: r2 =>
    let b := r2.takeWhile Char.isDigit
    if a.isEmpty && b.isEmpty then none else some (digitsToNat (a ++ b), b.length)
  | _ => if a.isEmpty then none else some (digitsToNat a, 0)

/-- `Math.round(x * mult)` for the nonnegative value `x = mantissa / 10 ^ places`
(JS rounds half toward positive infinity, which for nonnegative values is
`floor(x * mult + 1/2)`). -/
def roundScaled (mantissa places mult : Nat) : Nat :=
  (2 * mantissa * mult + 10 ^ places) / (2 * 10 ^ places)

/-- JS `parseInt(s, 10) || 0` on the cleaned match: value of the leading digit
run, with `NaN` (no leading digit) collapsed to 0 by the `|| 0`. -/
def jsParseIntOr0 (l : List Char) : Nat := digitsToNat (l.takeWhile Char.isDigit)

/-- `parseStatNumber` from src/utils/selectors.ts. `none` models a `NaN` return
(which the source can produce: `Math.round(parseFloat('') * 1000)` is `NaN`);
`some n` a normal number. -/
def parseStatNumber (text : List Char) : Option Nat :=
  match statScan text with
  | none => some 0
  | some numStr =>
    let cleaned := numStr.filter (fun c => !(c == ','))
    if cleaned.any (fun c => c == 'K' || c == 'k') then
      match floatValOf (cleaned.filter (fun c => !(c == 'K' || c == 'k'))) with
      | some (m, p) => some (roundScaled m p 1000)
      | none => none
    else if cleaned.any (fun c => c == 'M' || c == 'm') then
      match floatValOf (cleaned.filter (fun c => !(c == 'M' || c == 'm'))) with
      | some (m, p) => some (roundScaled m p 1000000)
      | none => none
    else some (jsParseIntOr0 cleaned)

/-! ## Relative time parsing (src/utils/selectors.ts, parseRelativeTime) -/

/-- The unit alternatives `(s|m|h|d|w)` of the Latin-style relative-time regex. -/
def isEnUnit (c : Char) : Bool :=
  c == 's' || c == 'm' || c == 'h' || c == 'd' || c == 'w'

/-- Milliseconds subtracted per unit by the `switch` on the Latin unit
(`setSeconds`/`setMinutes`/`setHours`/`setDate` deltas, exact in UTC). -/
def enUnitMs (c : Char) : Nat :=
  if c == 's' then 1000
  else if c == 'm' then 60000
  else if c == 'h' then 3600000
  else if c == 'd' then 86400000
  else 604800000

/-- Leftmost match of `/(\d+)\s*(s|m|h|d|w)/i` on the (already lowercased)
text: at each maximal digit run, skip whitespace and require a unit character.
A failed digit run cannot be rescued by a later start inside the same run, so
scanning character by character is equivalent to the regex search. -/
def scanEn : List Char → Option (Nat × Char)
  | [] => none
  | c :: rest =>
    if c.isDigit then
      let ds := (c :: rest).takeWhile Char.isDigit
      let r2 := ((c :: rest).dropWhile Char.isDigit).dropWhile isJsWs
      match r2 with
      | u :: _ => if isEnUnit u then some (digitsToNat ds, u) else scanEn rest
      | [] => scanEn rest
    else scanEn rest

/-- Time unit recognized by the CJK relative-time pattern. -/
inductive ZhUnit where
  | sec | min | hour | day | week | month
deriving DecidableEq

/-- The ordered alternatives of the CJK unit group
`(秒鐘?|秒|分鐘?|分|小時|小时|時|天|日|週|周|星期|礼拜|月)`, each tagged with the
unit the source's follow-up tests (`/秒/`, `/分/`, ...) assign to it. -/
def zhUnitAlts : List (List Char × ZhUnit) :=
  [("秒鐘".data, .sec), ("秒".data, .sec), ("分鐘".data, .min), ("分".data, .min),
   ("小時".data, .hour), ("小时".data, .hour), ("時".data, .hour),
   ("天".data, .day), ("日".data, .day),
   ("週".data, .week), ("周".data, .week), ("星期".data, .week), ("礼拜".data, .week),
   ("月".data, .month)]

/-- Milliseconds subtracted per CJK unit (months are approximated as 30 days by
the source). -/
def zhUnitMs : ZhUnit → Nat
  | .sec => 1000
  | .min => 60000
  | .hour => 3600000
  | .day => 86400000
  | .week => 604800000
  | .month => 2592000000

/-- Leftmost match of the CJK pattern `/(\d+)\s*(units...)\s*前?/` on the
original text: digit run, optional whitespace, then the first unit alternative
(in regex order) that is a prefix of the remainder. -/
def scanZh : List Char → Option (Nat × ZhUnit)
  | [] => none
  | c :: rest =>
    if c.isDigit then
      let ds := (c :: rest).takeWhile Char.isDigit
      let r2 := ((c :: rest).dropWhile Char.isDigit).dropWhile isJsWs
      match zhUnitAlts.find? (fun alt => alt.1.isPrefixOf r2) with
      | some alt => some (digitsToNat ds, alt.2)
      | none => scanZh rest
    else scanZh rest

/-- `parseRelativeTime` from src/utils/selectors.ts. `now` is the current
instant in epoch milliseconds; `none` models the empty-string sentinel, `some t`
an ISO timestamp for instant `t`. -/
def parseRelativeTime (text : List Char) (now : Int) : Option Int :=
  let lowerText := trimJs (lowerJs text)
  if lowerText.isEmpty then none
  else if containsSub "just now".data lowerText || containsSub "now".data lowerText ||
      containsSub "剛剛".data lowerText then some now
  else
    match scanEn lowerText with
    | some (v, u) => some (now - (v * enUnitMs u : Nat))
    | none =>
      match scanZh text with
      | some (v, u) => some (now - (v * zhUnitMs u : Nat))
      | none => none

/-! ## Page state classifier (src/utils/page-helpers.ts, detectPageError) -/

/-- The state of the rendered document as read by `detectPageError`'s
`page.evaluate` callback: the body's full text, the trimmed text of each
`button, a[role="button"]` element, whether `[role="dialog"] a[href*="login"]`
matched, whether `div[role="main"]` exists and how many children it has, and
the number of `a[href*="/post/"]` links. -/
structure PageDoc where
  bodyText : List Char
  buttonTexts : List (List Char)
  loginDialogLink : Bool
  mainRegion : Bool
  mainRegionChildren : Nat
  postLinkCount : Nat

/-- `loginTexts` from `detectPageError`. -/
def loginTexts : List (List Char) :=
  ["Log in".data, "登入".data, "ログイン".data, "로그인".data]

/-- `rateLimitPatterns` from `detectPageError`. -/
def rateLimitPatterns : List (List Char) :=
  ["rate limit".data, "too many requests".data, "try again later".data,
   "請稍後再試".data, "请稍后再试".data,
   "しばらくしてからもう一度お試しください".data, "나중에 다시 시도".data,
   "slow down".data, "temporarily blocked".data, "暫時被封鎖".data, "暂时被封锁".data,
   "wait a few minutes".data, "請等待幾分鐘".data, "请等待几分钟".data]

/-- `errorPatterns` from `detectPageError`. -/
def errorPatterns : List String :=
  ["Something went wrong", "出了點問題", "出了点问题", "問題が発生しました",
   "문제가 발생했습니다", "Try again", "blocked", "unavailable"]

/-- `PageErrorInfo` from src/utils/page-helpers.ts. -/
structure PageErrorInfo where
  isLoginWall : Bool
  isErrorPage : Bool
  isRateLimited : Bool
  isEmpty : Bool
  hasMainContent : Bool
  postLinkCount : Nat
  errorMessage : String
deriving DecidableEq

/-- `detectPageError` from src/utils/page-helpers.ts: login-wall from button
texts or a dialog login link; rate-limit and generic-error flags by
case-insensitive substring search of the phrase sets over the body text;
`hasMainContent` as a structural signal; `isEmpty` from the post-link count,
the main region and the trimmed body text length; and `errorMessage` set to the
fixed rate-limit message when rate limited, else to the first matching generic
error pattern, else left at the `Unknown error` placeholder. -/
def detectPageError (doc : PageDoc) : PageErrorInfo :=
  let bodyTextLower := lowerJs doc.bodyText
  let isLoginWall :=
    doc.buttonTexts.any (fun b => loginTexts.any (fun lt => containsSub lt (trimJs b))) ||
    doc.loginDialogLink
  let isRateLimited := rateLimitPatterns.any (fun p => containsSub (lowerJs p) bodyTextLower)
  let isErrorPage := errorPatterns.any (fun p => containsSub (lowerJs p.data) bodyTextLower)
  let hasMainContent := doc.mainRegion && decide (0 < doc.mainRegionChildren)
  let isEmpty :=
    decide (doc.postLinkCount = 0) &&
    (!hasMainContent || decide ((trimJs doc.bodyText).length < 50))
  let errorMessage :=
    if isRateLimited then "Rate limited by Threads"
    else
      match errorPatterns.find? (fun p => containsSub (lowerJs p.data) bodyTextLower) with
      | some p => p
      | none => "Unknown error"
  ⟨isLoginWall, isErrorPage, isRateLimited, isEmpty, hasMainContent,
   doc.postLinkCount, errorMessage⟩

/-! ## Post content assembly (src/utils/selectors.ts, parsePostFromElement) -/

/-- `Array.prototype.join('\n\n')` over the surviving text nodes. -/
def joinSep (sep : List Char) : List (List Char) → List Char
  | [] => []
  | [t] => t
  | t :: rest => t ++ sep ++ joinSep sep rest

/-- One application of `content.replace(/\s*(A|B)\s*$/i, '')`: if, after
discarding trailing whitespace, the text ends with one of the phrases
(case-insensitively), remove the phrase together with the whitespace around it;
otherwise leave the text unchanged. -/
def stripTrailingPhrase (phrases : List (List Char)) (s : List Char) : List Char :=
  let t := trimRightJs s
  match phrases.find? (fun p => (lowerJs p).isSuffixOf (lowerJs t)) with
  | some p => trimRightJs (t.take (t.length - p.length))
  | none => s

/-- The phrase alternatives of `/\s*(Learn more|了解更多)\s*$/i`. -/
def LEARN_MORE_PHRASES : List (List Char) := ["Learn more".data, "了解更多".data]

/-- The phrase alternatives of `/\s*(Translate|翻譯)\s*$/i`. -/
def TRANSLATE_PHRASES : List (List Char) := ["Translate".data, "翻譯".data]

/-- The content-assembly pipeline of `parsePostFromElement`: the surviving
directional text nodes are joined with blank lines, trailing UI remnants are
stripped, and the result is trimmed. -/
def assembleContent (texts : List (List Char)) : List Char :=
  let joined := if 0 < texts.length then joinSep "\n\n".data texts else []
  trimJs (stripTrailingPhrase TRANSLATE_PHRASES (stripTrailingPhrase LEARN_MORE_PHRASES joined))

/-- The `content` field of the returned record:
`content ? content.slice(0, 2000) : ''`. -/
def finalPostContent (texts : List (List Char)) : List Char :=
  let c := assembleContent texts
  if c.isEmpty then [] else c.take 2000

/-- The `/^\d+[mhd]$/` filter used on quoted-post candidate texts. -/
def matchesBareTime (t : List Char) : Bool :=
  let ds := t.takeWhile Char.isDigit
  match t.dropWhile Char.isDigit with
  | [u] => !ds.isEmpty && (u == 'm' || u == 'h' || u == 'd')
  | _ => false

/-- The `/^\d+\/\d+\/\d+$/` filter used on quoted-post candidate texts. -/
def matchesBareDate (t : List Char) : Bool :=
  let d1 := t.takeWhile Char.isDigit
  match t.dropWhile Char.isDigit with
  | '/' :: r1 =>
    let d2 := r1.takeWhile Char.isDigit
    (!d1.isEmpty) &&
    (match r1.dropWhile Char.isDigit with
     | '/' :: r2 =>
       let d3 := r2.takeWhile Char.isDigit
       (!d2.isEmpty) && (!d3.isEmpty) && r2.dropWhile Char.isDigit = []
     | _ => false)
  | _ => false

/-- The quoted-post content heuristic of `parsePostFromElement`: the first
(trimmed) text node in the quoted container longer than 5 characters that is
not a bare time or date pattern; the record stores it unchanged
(`data.quoted.content || ''`) with no length cap. -/
def quotedContentOf (textsInQuoted : List (List Char)) : List Char :=
  match textsInQuoted.find?
      (fun t => decide (5 < t.length) && !matchesBareTime t && !matchesBareDate t) with
  | some t => t
  | none => []

/-! ## Batch scheduler (src/main.ts, runBatch) -/

/-- One batch task: its report name and the outcome its `fn` produces when
executed (resolve, or reject with an error message). -/
structure BatchTask where
  name : String
  succeeds : Bool
  errMsg : String
deriving DecidableEq

/-- Scheduler state: the shared queue, the tasks currently being executed by
some worker, and the completed tasks (most recent first). -/
structure BatchState where
  queue : List BatchTask
  running : List BatchTask
  done : List BatchTask
deriving DecidableEq

/-- Small-step semantics of `runBatch`'s worker pool with concurrency `c`: an
idle worker atomically shifts the head of the queue (possible only while fewer
than `c` tasks are in flight), or a task in flight completes — its outcome is
recorded and never stops the other workers. The interleaving of completions is
left nondeterministic. -/
inductive BatchStep (c : Nat) : BatchState → BatchState → Prop where
  | start (t : BatchTask) (q r d : List BatchTask) :
      r.length < c → BatchStep c ⟨t :: q, r, d⟩ ⟨q, t :: r, d⟩
  | finish (t : BatchTask) (q r d : List BatchTask) :
      t ∈ r → BatchStep c ⟨q, r, d⟩ ⟨q, r.erase t, t :: d⟩

/-- Initial scheduler state: the full task list queued, nothing running. -/
def batchInit (tasks : List BatchTask) : BatchState := ⟨tasks, [], []⟩

/-- The scheduler is finished: empty queue and no task in flight (all workers
returned, `Promise.all` resolved). -/
def batchTerminal (s : BatchState) : Prop := s.queue = [] ∧ s.running = []

/-- The `success` counter after completion. -/
def successCount (d : List BatchTask) : Nat := d.countP (fun t => t.succeeds)

/-- The `fail` counter after completion. -/
def failCount (d : List BatchTask) : Nat := d.countP (fun t => !t.succeeds)

/-- The `errors` list: one `{name, error}` entry per failed task. -/
def batchErrors (d : List BatchTask) : List (String × String) :=
  (d.filter (fun t => !t.succeeds)).map (fun t => (t.name, t.errMsg))

/-- Progress measure for the scheduler: strictly decreases on every step. -/
def batchMeasure (s : BatchState) : Nat := 2 * s.queue.length + s.running.length

/-- Concrete tasks used to exercise the batch scheduler model. -/
def taskOkA : BatchTask := ⟨"search:alpha", true, ""⟩

/-- A concrete always-failing batch task. -/
def taskFailB : BatchTask := ⟨"profile:beta", false, "boom"⟩

/-! ## Theorems -/

theorem mem_ite_singleton {x y : String} {c : Prop} [Decidable c] :
    x ∈ (if c then [y] else ([] : List String)) ↔ c ∧ x = y := by
  split <;> simp_all

/-- Claim C6: validatePost returns invalid with reason noContent exactly when
the content is missing or shorter than 3 characters; otherwise invalid with
reason noAuthor exactly when the author username is missing or equals the
unknown-sentinel; otherwise invalid with reason noTimestamp exactly when the
timestamp is empty; otherwise valid — reasons checked in that priority order. -/
theorem validatePost_spec (p : PostRecord) :
    (validatePost p = ⟨false, some "noContent"⟩ ↔ p.content.length < 3) ∧
    (validatePost p = ⟨false, some "noAuthor"⟩ ↔
      3 ≤ p.content.length ∧ (p.author.username = "" ∨ p.author.username = "unknown")) ∧
    (validatePost p = ⟨false, some "noTimestamp"⟩ ↔
      3 ≤ p.content.length ∧ p.author.username ≠ "" ∧ p.author.username ≠ "unknown" ∧
        p.timestamp = "") ∧
    (validatePost p = ⟨true, none⟩ ↔
      3 ≤ p.content.length ∧ p.author.username ≠ "" ∧ p.author.username ≠ "unknown" ∧
        p.timestamp ≠ "") := by
  have hc : (p.content = "" ∨ p.content.length < 3) ↔ p.content.length < 3 := by
    constructor
    · rintro (h | h)
      · rw [h]; decide
      · exact h
    · exact Or.inr
  unfold validatePost
  simp only [hc]
  split_ifs with h1 h2 h3 <;>
    simp_all [PostValidation.mk.injEq] <;>
    first
      | omega
      | tauto

/-- Witness for C6 at a concrete post: two-character content is rejected with
reason noContent. -/
theorem validatePost_spec_witness :
    validatePost ⟨"hi", ⟨"alice", "Alice"⟩, "2024-01-01"⟩ = ⟨false, some "noContent"⟩ :=
  (validatePost_spec ⟨"hi", ⟨"alice", "Alice"⟩, "2024-01-01"⟩).1.mpr (by decide)

/-- Claim C7: validateProfile is invalid only when the username is missing;
otherwise valid, with the partial flag set exactly when at least one of
displayName, avatarUrl, followersCount, bio, location, joinedDate is absent,
and with missing listing exactly the absent fields from that set — where
location and joinedDate are missing iff null/undefined (an empty string is not
missing for them). -/
theorem validateProfile_spec (p : ProfileRecord) :
    ((validateProfile p).valid = false ↔ p.username = "") ∧
    (p.username ≠ "" →
      validateProfile p =
        ⟨true, none, some (decide (0 < (profileMissing p).length)), some (profileMissing p)⟩ ∧
      (("displayName" ∈ profileMissing p) ↔ p.displayName = "") ∧
      (("avatarUrl" ∈ profileMissing p) ↔ jsFalsy p.avatarUrl = true) ∧
      (("followersCount" ∈ profileMissing p) ↔ p.followersCount = none) ∧
      (("bio" ∈ profileMissing p) ↔ jsFalsy p.bio = true) ∧
      (("location" ∈ profileMissing p) ↔ p.location = none) ∧
      (("joinedDate" ∈ profileMissing p) ↔ p.joinedDate = none) ∧
      (∀ x ∈ profileMissing p,
        x ∈ ["displayName", "avatarUrl", "followersCount", "bio", "location", "joinedDate"]) ∧
      ((validateProfile p).incomplete = some true ↔
        (p.displayName = "" ∨ jsFalsy p.avatarUrl = true ∨ p.followersCount = none ∨
          jsFalsy p.bio = true ∨ p.location = none ∨ p.joinedDate = none))) := by
  by_cases hu : p.username = ""
  · constructor
    · simp [validateProfile, hu]
    · intro h; exact absurd hu h
  · constructor
    · simp [validateProfile, hu]
    · intro _
      have hval : validateProfile p =
          ⟨true, none, some (decide (0 < (profileMissing p).length)), some (profileMissing p)⟩ := by
        simp [validateProfile, hu]
      refine ⟨hval, ?_, ?_, ?_, ?_, ?_, ?_, ?_, ?_⟩
      · simp [profileMissing, List.mem_append, mem_ite_singleton]
      · simp [profileMissing, List.mem_append, mem_ite_singleton]
      · simp [profileMissing, List.mem_append, mem_ite_singleton]
      · simp [profileMissing, List.mem_append, mem_ite_singleton]
      · simp [profileMissing, List.mem_append, mem_ite_singleton]
      · simp [profileMissing, List.mem_append, mem_ite_singleton]
      · intro x hx
        simp only [profileMissing, List.mem_append, mem_ite_singleton] at hx
        rcases hx with ((((h | h) | h) | h) | h) | h <;> simp [h.2]
      · rw [hval]
        simp only [Option.some.injEq, decide_eq_true_eq]
        constructor
        · intro hlen
          by_contra hno
          push_neg at hno
          obtain ⟨h1, h2, h3, h4, h5, h6⟩ := hno
          simp [profileMissing, h1, h2, h3, h4, h5, h6] at hlen
        · intro hsome
          rcases hsome with h | h | h | h | h | h <;>
            simp [profileMissing, h, List.length_append] <;>
            omega

/-- Witness for C7 at a concrete profile: username present, bio and
followersCount absent — valid, partial, and missing contains exactly those. -/
theorem validateProfile_spec_witness :
    validateProfile ⟨"alice", "Alice", some "http://a/av.png", none, none,
        some "Taipei", some "2023"⟩ =
      ⟨true, none, some true, some ["followersCount", "bio"]⟩ := by
  have h := (validateProfile_spec ⟨"alice", "Alice", some "http://a/av.png", none, none,
      some "Taipei", some "2023"⟩).2 (by decide)
  rw [h.1]
  decide

theorem mem_foldl_union (cycles : List (Finset String)) (acc : Finset String) (x : String) :
    x ∈ cycles.foldl (fun seen ids => seen ∪ ids) acc ↔ x ∈ acc ∨ ∃ s ∈ cycles, x ∈ s := by
  induction cycles generalizing acc with
  | nil => simp
  | cons hd tl ih =>
    simp only [List.foldl_cons, ih, Finset.mem_union, List.mem_cons]
    constructor
    · rintro ((h | h) | ⟨s, hs, hx⟩)
      · exact Or.inl h
      · exact Or.inr ⟨hd, Or.inl rfl, h⟩
      · exact Or.inr ⟨s, Or.inr hs, hx⟩
    · rintro (h | ⟨s, hs | hs, hx⟩)
      · exact Or.inl (Or.inl h)
      · exact Or.inl (Or.inr (hs ▸ hx))
      · exact Or.inr ⟨s, hs, hx⟩

theorem mem_scrollSeen (cycles : List (Finset String)) (x : String) :
    x ∈ scrollSeen cycles ↔ ∃ s ∈ cycles, x ∈ s := by
  unfold scrollSeen
  rw [mem_foldl_union]
  simp

/-- Claim C1: the cumulative seen-set after all cycles equals the union of the
per-cycle ID sets; its final size is independent of the order of the cycles;
and its size is monotonically non-decreasing from each cycle to the next. -/
theorem scrollSeen_spec (cycles cycles' : List (Finset String)) (n : Nat)
    (hperm : cycles.Perm cycles') :
    (∀ x, x ∈ scrollSeen cycles ↔ ∃ s ∈ cycles, x ∈ s) ∧
    scrollSeen cycles = scrollSeen cycles' ∧
    (scrollSeen cycles).card = (scrollSeen cycles').card ∧
    (scrollSeen (cycles.take n)).card ≤ (scrollSeen (cycles.take (n + 1))).card := by
  have heq : scrollSeen cycles = scrollSeen cycles' := by
    apply Finset.ext
    intro x
    rw [mem_scrollSeen, mem_scrollSeen]
    constructor
    · rintro ⟨s, hs, hx⟩; exact ⟨s, hperm.mem_iff.mp hs, hx⟩
    · rintro ⟨s, hs, hx⟩; exact ⟨s, hperm.mem_iff.mpr hs, hx⟩
  refine ⟨mem_scrollSeen cycles, heq, by rw [heq], ?_⟩
  apply Finset.card_le_card
  intro x hx
  rw [mem_scrollSeen] at hx ⊢
  obtain ⟨s, hs, hx⟩ := hx
  have hsub : cycles.take n ⊆ cycles.take (n + 1) := by
    have h1 : (cycles.take (n + 1)).take n = cycles.take n := by
      rw [List.take_take]
      congr 1
      omega
    rw [← h1]
    exact List.take_subset _ _
  exact ⟨s, hsub hs, hx⟩

/-- Witness for C1 at concrete cycles: two overlapping singleton cycles given
in either order produce the same two-element union, and the prefix sizes do not
decrease. -/
theorem scrollSeen_spec_witness :
    scrollSeen [{"a"}, {"a", "b"}] = scrollSeen [{"a", "b"}, {"a"}] ∧
    (scrollSeen [{"a"}, {"a", "b"}]).card = 2 ∧
    (scrollSeen ([{"a"}, {"a", "b"}].take 1)).card ≤
      (scrollSeen ([{"a"}, {"a", "b"}].take 2)).card := by
  have h := scrollSeen_spec [{"a"}, {"a", "b"}] [{"a", "b"}, {"a"}] 1
    (List.Perm.swap ({"a", "b"} : Finset String) ({"a"} : Finset String) [])
  exact ⟨h.2.1, by decide, h.2.2.2⟩

theorem withRateLimitRetryFrom_allRateLimited {α : Type} (fn : Nat → FnOutcome α)
    (config : RateLimitConfig) (e : Nat → String) :
    ∀ k a, config.maxRetries - a = k → a ≤ config.maxRetries →
      (∀ i, a ≤ i → i ≤ config.maxRetries → fn i = .rateLimited (e i)) →
      withRateLimitRetryFrom fn config a =
        ⟨.rateLimited (e config.maxRetries),
         (List.range' a (config.maxRetries - a)).map
           (fun i => config.backoffDelay * config.backoffMultiplier ^ i),
         List.range' a (config.maxRetries - a + 1)⟩ := by
  intro k
  induction k with
  | zero =>
    intro a hk ha hfn
    have haeq : a = config.maxRetries := by omega
    rw [withRateLimitRetryFrom, hfn a le_rfl ha]
    dsimp only
    rw [dif_neg (by omega)]
    simp [hk, haeq, List.range']
  | succ k ih =>
    intro a hk ha hfn
    have halt : a < config.maxRetries := by omega
    rw [withRateLimitRetryFrom, hfn a le_rfl ha]
    dsimp only
    rw [dif_pos halt]
    have hrec := ih (a + 1) (by omega) (by omega) (fun i hi hi2 => hfn i (by omega) hi2)
    rw [hrec]
    have h1 : config.maxRetries - a = (config.maxRetries - (a + 1)) + 1 := by omega
    rw [h1, List.range'_succ, List.range'_succ]
    simp [List.range'_succ]

/-- Claim C2: a non-rate-limit failure is propagated immediately with no sleep
and no second attempt; a rate-limit failure with attempts remaining causes a
sleep of backoffDelay × backoffMultiplier ^ attemptIndex before the retry; if
every attempt up to maxRetries fails with a rate-limit error, the error of the
last attempt is propagated after exactly maxRetries sleeps; and with the
default config those delays are exactly 5000ms, 10000ms, 20000ms. -/
theorem withRateLimitRetry_spec {α : Type} (fn : Nat → FnOutcome α)
    (config : RateLimitConfig) :
    (∀ e, fn 0 = .failure e → withRateLimitRetry fn config = ⟨.failure e, [], [0]⟩) ∧
    (∀ a e, fn a = .rateLimited e → a < config.maxRetries →
      withRateLimitRetryFrom fn config a =
        ⟨(withRateLimitRetryFrom fn config (a + 1)).result,
         (config.backoffDelay * config.backoffMultiplier ^ a) ::
           (withRateLimitRetryFrom fn config (a + 1)).delays,
         a :: (withRateLimitRetryFrom fn config (a + 1)).attempts⟩) ∧
    (∀ e : Nat → String, (∀ i, i ≤ config.maxRetries → fn i = .rateLimited (e i)) →
      withRateLimitRetry fn config =
        ⟨.rateLimited (e config.maxRetries),
         (List.range config.maxRetries).map
           (fun i => config.backoffDelay * config.backoffMultiplier ^ i),
         List.range (config.maxRetries + 1)⟩) ∧
    (∀ e : Nat → String, (∀ i, i ≤ 3 → fn i = .rateLimited (e i)) →
      (withRateLimitRetry fn DEFAULT_RATE_LIMIT_CONFIG).delays = [5000, 10000, 20000] ∧
      (withRateLimitRetry fn DEFAULT_RATE_LIMIT_CONFIG).result = .rateLimited (e 3)) := by
  have hall : ∀ (cfg : RateLimitConfig) (e : Nat → String),
      (∀ i, i ≤ cfg.maxRetries → fn i = .rateLimited (e i)) →
      withRateLimitRetry fn cfg =
        ⟨.rateLimited (e cfg.maxRetries),
         (List.range cfg.maxRetries).map
           (fun i => cfg.backoffDelay * cfg.backoffMultiplier ^ i),
         List.range (cfg.maxRetries + 1)⟩ := by
    intro cfg e hfn
    unfold withRateLimitRetry
    rw [withRateLimitRetryFrom_allRateLimited fn cfg e (cfg.maxRetries - 0) 0 rfl
      (Nat.zero_le _) (fun i _ hi2 => hfn i hi2)]
    rw [List.range_eq_range', List.range_eq_range']
    simp
  refine ⟨?_, ?_, hall config, ?_⟩
  · intro e hfn
    unfold withRateLimitRetry
    rw [withRateLimitRetryFrom, hfn]
  · intro a e hfn ha
    rw [withRateLimitRetryFrom, hfn]
    dsimp only
    rw [dif_pos ha]
  · intro e hfn
    have h := hall DEFAULT_RATE_LIMIT_CONFIG e hfn
    rw [h]
    constructor <;> rfl

/-- Witness for C2 at a concrete always-rate-limited operation and the default
config: the delays are 5000, 10000, 20000 and the last error is propagated. -/
theorem withRateLimitRetry_spec_witness :
    (withRateLimitRetry (fun i => (FnOutcome.rateLimited (toString i) : FnOutcome Unit))
        DEFAULT_RATE_LIMIT_CONFIG).delays = [5000, 10000, 20000] ∧
    (withRateLimitRetry (fun i => (FnOutcome.rateLimited (toString i) : FnOutcome Unit))
        DEFAULT_RATE_LIMIT_CONFIG).result = .rateLimited "3" :=
  (withRateLimitRetry_spec (fun i => (FnOutcome.rateLimited (toString i) : FnOutcome Unit))
    DEFAULT_RATE_LIMIT_CONFIG).2.2.2 (fun i => toString i) (fun _ _ => rfl)

theorem union_card_eq_iff (s X : Finset String) : (s ∪ X).card = s.card ↔ X ⊆ s := by
  constructor
  · intro h
    have hsub : s ⊆ s ∪ X := Finset.subset_union_left
    have heq : s = s ∪ X := Finset.eq_of_subset_of_card_le hsub (le_of_eq h)
    intro x hx
    rw [heq]
    exact Finset.mem_union_right _ hx
  · intro h
    rw [Finset.union_eq_left.mpr h]

theorem scrollStep_noNew (env : ScrollEnv) (st : ScrollState) :
    (scrollStep env st).noNewContentCount =
      if env.idsAt st.attempt ⊆ st.seen then st.noNewContentCount + 1 else 0 := by
  unfold scrollStep
  dsimp only
  simp only [union_card_eq_iff]

theorem scrollLoopFrom_spec (env : ScrollEnv) (maxItems : Nat) :
    ∀ (k : Nat) (st : ScrollState), maxAttemptsFor maxItems - st.attempt ≤ k →
      st.noNewContentCount ≤ MAX_NO_NEW_CONTENT →
      st.attempt ≤ maxAttemptsFor maxItems →
      (scrollLoopFrom env maxItems st).1.attempt ≤ maxAttemptsFor maxItems ∧
      ((scrollLoopFrom env maxItems st).2 = .noProgress →
        (scrollLoopFrom env maxItems st).1.noNewContentCount = MAX_NO_NEW_CONTENT ∧
        (scrollLoopFrom env maxItems st).1.attempt < maxAttemptsFor maxItems) ∧
      ((scrollLoopFrom env maxItems st).2 = .attemptCap →
        (scrollLoopFrom env maxItems st).1.attempt = maxAttemptsFor maxItems) ∧
      ((scrollLoopFrom env maxItems st).2 = .timeout →
        GLOBAL_TIMEOUT < env.elapsedAt (scrollLoopFrom env maxItems st).1.attempt ∧
        (scrollLoopFrom env maxItems st).1.attempt < maxAttemptsFor maxItems ∧
        (scrollLoopFrom env maxItems st).1.noNewContentCount < MAX_NO_NEW_CONTENT) ∧
      ((scrollLoopFrom env maxItems st).2 = .enoughPosts →
        3 * maxItems ≤ 2 * (scrollLoopFrom env maxItems st).1.seen.card) := by
  have hM : MAX_NO_NEW_CONTENT = 4 := rfl
  intro k
  induction k with
  | zero =>
    intro st hk hnn hat
    have hend : ¬ (st.attempt < maxAttemptsFor maxItems ∧
        st.noNewContentCount < MAX_NO_NEW_CONTENT) := by
      intro hcon
      omega
    rw [scrollLoopFrom, dif_neg hend]
    have hae : st.attempt = maxAttemptsFor maxItems := by omega
    rw [if_neg (by omega)]
    refine ⟨by simpa using hat, ?_, ?_, ?_, ?_⟩ <;> intro hr <;> simp_all
  | succ k ih =>
    intro st hk hnn hat
    by_cases hguard : st.attempt < maxAttemptsFor maxItems ∧
        st.noNewContentCount < MAX_NO_NEW_CONTENT
    · rw [scrollLoopFrom, dif_pos hguard]
      by_cases htime : GLOBAL_TIMEOUT < env.elapsedAt st.attempt
      · rw [if_pos htime]
        refine ⟨by simpa using hat, ?_, ?_, ?_, ?_⟩ <;> intro hr <;> simp_all
      · rw [if_neg htime]
        by_cases henough : 3 * maxItems ≤ 2 * (scrollStep env st).seen.card
        · rw [if_pos henough]
          have hat' : (scrollStep env st).attempt ≤ maxAttemptsFor maxItems := by
            simp only [scrollStep]
            omega
          refine ⟨by simpa using hat', ?_, ?_, ?_, ?_⟩ <;> intro hr <;> simp_all
        · rw [if_neg henough]
          have hat' : (scrollStep env st).attempt = st.attempt + 1 := rfl
          have hnn' : (scrollStep env st).noNewContentCount ≤ MAX_NO_NEW_CONTENT := by
            rw [scrollStep_noNew]
            split <;> omega
          exact ih (scrollStep env st) (by omega) hnn' (by omega)
    · rw [scrollLoopFrom, dif_neg hguard]
      by_cases hlt : st.attempt < maxAttemptsFor maxItems
      · have heq : st.noNewContentCount = MAX_NO_NEW_CONTENT := by
          rcases Decidable.not_and_iff_or_not.mp hguard with h | h
          · exact absurd hlt h
          · omega
        rw [if_pos hlt]
        refine ⟨by simpa using hat, ?_, ?_, ?_, ?_⟩ <;> intro hr <;> simp_all
      · have hae : st.attempt = maxAttemptsFor maxItems := by omega
        rw [if_neg hlt]
        refine ⟨by simpa using hat, ?_, ?_, ?_, ?_⟩ <;> intro hr <;> simp_all

/-- Claim C8: the scroll loop of scrollForPosts always terminates (its cycle
count is bounded by min(20, ceil(maxItems/5) + 5), which is at most 20), and
the condition on which it stops holds at the stopping point: no-progress
counter at 4 (with the attempt cap not yet reached), attempt counter at the
cap, elapsed time above 45 seconds (with neither counter condition triggered),
or cumulative seen-set size at 1.5 × maxItems; and the no-progress counter is
incremented exactly when a cycle adds no new IDs to the cumulative set and
reset to zero otherwise. -/
theorem scrollForPosts_spec (env : ScrollEnv) (maxItems : Nat) :
    (scrollForPosts env maxItems).1.attempt ≤ maxAttemptsFor maxItems ∧
    maxAttemptsFor maxItems ≤ 20 ∧
    ((scrollForPosts env maxItems).2 = .noProgress →
      (scrollForPosts env maxItems).1.noNewContentCount = MAX_NO_NEW_CONTENT ∧
      (scrollForPosts env maxItems).1.attempt < maxAttemptsFor maxItems) ∧
    ((scrollForPosts env maxItems).2 = .attemptCap →
      (scrollForPosts env maxItems).1.attempt = maxAttemptsFor maxItems) ∧
    ((scrollForPosts env maxItems).2 = .timeout →
      GLOBAL_TIMEOUT < env.elapsedAt (scrollForPosts env maxItems).1.attempt ∧
      (scrollForPosts env maxItems).1.attempt < maxAttemptsFor maxItems ∧
      (scrollForPosts env maxItems).1.noNewContentCount < MAX_NO_NEW_CONTENT) ∧
    ((scrollForPosts env maxItems).2 = .enoughPosts →
      3 * maxItems ≤ 2 * (scrollForPosts env maxItems).1.seen.card) ∧
    (∀ st : ScrollState, (scrollStep env st).noNewContentCount =
      if env.idsAt st.attempt ⊆ st.seen then st.noNewContentCount + 1 else 0) := by
  have h := scrollLoopFrom_spec env maxItems (maxAttemptsFor maxItems) ⟨∅, 0, 0⟩
    (Nat.sub_le _ _) (Nat.zero_le _) (Nat.zero_le _)
  unfold scrollForPosts
  refine ⟨h.1, ?_, h.2.1, h.2.2.1, h.2.2.2.1, h.2.2.2.2, fun st => scrollStep_noNew env st⟩
  unfold maxAttemptsFor
  omega

/-- Witness for C8 at a concrete environment and target: with target 0 the
overshoot condition is met after the first cycle and the loop stops with the
seen-set condition satisfied. -/
theorem scrollForPosts_spec_witness :
    (scrollForPosts ⟨fun _ => ∅, fun _ => 0⟩ 0).2 = ScrollStop.enoughPosts ∧
    3 * 0 ≤ 2 * (scrollForPosts ⟨fun _ => ∅, fun _ => 0⟩ 0).1.seen.card := by
  have hr : (scrollForPosts ⟨fun _ => ∅, fun _ => 0⟩ 0).2 = ScrollStop.enoughPosts := by
    rw [scrollForPosts, scrollLoopFrom]
    norm_num [maxAttemptsFor, MAX_NO_NEW_CONTENT, GLOBAL_TIMEOUT]
  exact ⟨hr, (scrollForPosts_spec ⟨fun _ => ∅, fun _ => 0⟩ 0).2.2.2.2.2.1 hr⟩

theorem takeWhile_append_all (p : Char → Bool) (l1 l2 : List Char)
    (h : ∀ c ∈ l1, p c = true) :
    (l1 ++ l2).takeWhile p = l1 ++ l2.takeWhile p := by
  induction l1 with
  | nil => simp
  | cons a l ih =>
    simp only [List.cons_append, List.takeWhile_cons]
    rw [h a (by simp), ih (fun c hc => h c (by simp [hc]))]
    simp

theorem dropWhile_append_all (p : Char → Bool) (l1 l2 : List Char)
    (h : ∀ c ∈ l1, p c = true) :
    (l1 ++ l2).dropWhile p = l2.dropWhile p := by
  induction l1 with
  | nil => simp
  | cons a l ih =>
    simp only [List.cons_append, List.dropWhile_cons]
    rw [h a (by simp)]
    simp only [if_true]
    exact ih (fun c hc => h c (by simp [hc]))

theorem statScan_eq_none (t : List Char) (h : ∀ c ∈ t, isDigitOrComma c = false) :
    statScan t = none := by
  induction t with
  | nil => rfl
  | cons c rest ih =>
    have hc := h c (by simp)
    rw [statScan, if_neg (by simp [hc])]
    exact ih (fun x hx => h x (by simp [hx]))

theorem statMatchHere_digits_suffix (ds : List Char) (k : Char)
    (hdig : ∀ c ∈ ds, c.isDigit = true)
    (hk : k = 'K' ∨ k = 'k' ∨ k = 'M' ∨ k = 'm') :
    statMatchHere (ds ++ [k]) = ds ++ [k] := by
  have hall : ∀ c ∈ ds, isDigitOrComma c = true := by
    intro c hc
    simp [isDigitOrComma, hdig c hc]
  unfold statMatchHere
  rw [takeWhile_append_all _ _ _ hall, dropWhile_append_all _ _ _ hall]
  rcases hk with hk | hk | hk | hk <;> subst hk
  · rw [show List.takeWhile isDigitOrComma ['K'] = [] from rfl,
        show List.dropWhile isDigitOrComma ['K'] = ['K'] from rfl]
    dsimp only
    simp
  · rw [show List.takeWhile isDigitOrComma ['k'] = [] from rfl,
        show List.dropWhile isDigitOrComma ['k'] = ['k'] from rfl]
    dsimp only
    simp
  · rw [show List.takeWhile isDigitOrComma ['M'] = [] from rfl,
        show List.dropWhile isDigitOrComma ['M'] = ['M'] from rfl]
    dsimp only
    simp
  · rw [show List.takeWhile isDigitOrComma ['m'] = [] from rfl,
        show List.dropWhile isDigitOrComma ['m'] = ['m'] from rfl]
    dsimp only
    simp

theorem digit_beq_false (c x : Char) (hc : c.isDigit = true) (hx : x.isDigit = false) :
    (c == x) = false := by
  by_cases h : c = x
  · subst h
    rw [hc] at hx
    exact absurd hx (by simp)
  · simp [h]

/-- Counterexample to Claim C5 as stated: the input ",K" contains no digit, yet
parseStatNumber does not return 0 — the regex matches ",K", the comma is
stripped, the K branch runs parseFloat on the empty string, and
Math.round(NaN * 1000) is NaN (modelled as none). -/
theorem parseStatNumber_counterexample :
    (",K".data.all (fun c => !c.isDigit)) = true ∧
    parseStatNumber ",K".data = none ∧
    parseStatNumber ",K".data ≠ some 0 := by
  refine ⟨by decide, by decide, by decide⟩

/-- Claim C5 (amended): parseStatNumber extracts the first
`[digits/commas][.digits]?[K|M]?` pattern, strips the commas, and with a K or M
suffix multiplies the parsed value by 1,000 or 1,000,000 and rounds; an input
with no digit-or-comma character (no regex match) yields 0; but a match that
carries a K/M suffix while containing no digit (such as ",K") yields NaN
rather than 0. In particular "讚 2,049" → 2049, "1.5K" → 1500, "2M" → 2000000,
and for every nonempty all-digit run the K and M suffixes multiply exactly. -/
theorem parseStatNumber_spec :
    (∀ t : List Char, (∀ c ∈ t, isDigitOrComma c = false) → parseStatNumber t = some 0) ∧
    parseStatNumber "讚 2,049".data = some 2049 ∧
    parseStatNumber "1.5K".data = some 1500 ∧
    parseStatNumber "2M".data = some 2000000 ∧
    parseStatNumber "".data = some 0 ∧
    parseStatNumber ",K".data = none ∧
    (∀ ds : List Char, ds ≠ [] → (∀ c ∈ ds, c.isDigit = true) →
      parseStatNumber (ds ++ ['K']) = some (digitsToNat ds * 1000) ∧
      parseStatNumber (ds ++ ['M']) = some (digitsToNat ds * 1000000)) := by
  refine ⟨?_, by decide, by decide, by decide, by decide, by decide, ?_⟩
  · intro t h
    unfold parseStatNumber
    rw [statScan_eq_none t h]
  · intro ds hne hdig
    obtain ⟨d, ds', rfl⟩ : ∃ d ds', ds = d :: ds' := by
      cases ds with
      | nil => exact absurd rfl hne
      | cons d ds' => exact ⟨d, ds', rfl⟩
    have hfilterComma : ∀ k : Char, (k == ',') = false →
        ((d :: ds') ++ [k]).filter (fun c => !(c == ',')) = (d :: ds') ++ [k] := by
      intro k hk
      rw [List.filter_eq_self]
      intro c hc
      rcases List.mem_append.mp hc with hc | hc
      · simp [digit_beq_false c ',' (hdig c hc) (by decide)]
      · have hck : c = k := by simpa using hc
        subst hck
        simp [hk]
    have hfloat : floatValOf (d :: ds') = some (digitsToNat (d :: ds'), 0) := by
      unfold floatValOf
      rw [List.takeWhile_eq_self_iff.mpr hdig, List.dropWhile_eq_nil_iff.mpr hdig]
      dsimp only
      rw [if_neg (by simp)]
    constructor
    · have hscan : statScan ((d :: ds') ++ ['K']) = some ((d :: ds') ++ ['K']) := by
        rw [List.cons_append, statScan,
          if_pos (by simp [isDigitOrComma, hdig d (by simp)]), ← List.cons_append,
          statMatchHere_digits_suffix (d :: ds') 'K' hdig (by simp)]
      unfold parseStatNumber
      rw [hscan]
      dsimp only
      rw [hfilterComma 'K' (by decide)]
      have hany : ((d :: ds') ++ ['K']).any (fun c => c == 'K' || c == 'k') = true := by
        simp
      rw [hany, if_pos rfl]
      have hfk : ((d :: ds') ++ ['K']).filter (fun c => !(c == 'K' || c == 'k')) = d :: ds' := by
        rw [List.filter_append]
        rw [List.filter_eq_self.mpr (fun c hc => by
          simp [digit_beq_false c 'K' (hdig c hc) (by decide),
            digit_beq_false c 'k' (hdig c hc) (by decide)])]
        simp
      rw [hfk, hfloat]
      dsimp only
      unfold roundScaled
      congr 1
      omega
    · have hscan : statScan ((d :: ds') ++ ['M']) = some ((d :: ds') ++ ['M']) := by
        rw [List.cons_append, statScan,
          if_pos (by simp [isDigitOrComma, hdig d (by simp)]), ← List.cons_append,
          statMatchHere_digits_suffix (d :: ds') 'M' hdig (by simp)]
      unfold parseStatNumber
      rw [hscan]
      dsimp only
      rw [hfilterComma 'M' (by decide)]
      have hanyK : ((d :: ds') ++ ['M']).any (fun c => c == 'K' || c == 'k') = false := by
        rw [List.any_eq_false]
        intro c hc
        rcases List.mem_append.mp hc with hc | hc
        · simp [digit_beq_false c 'K' (hdig c hc) (by decide),
            digit_beq_false c 'k' (hdig c hc) (by decide)]
        · have : c = 'M' := by simpa using hc
          subst this
          decide
      rw [hanyK, if_neg (by simp)]
      have hanyM : ((d :: ds') ++ ['M']).any (fun c => c == 'M' || c == 'm') = true := by
        simp
      rw [hanyM, if_pos rfl]
      have hfm : ((d :: ds') ++ ['M']).filter (fun c => !(c == 'M' || c == 'm')) = d :: ds' := by
        rw [List.filter_append]
        rw [List.filter_eq_self.mpr (fun c hc => by
          simp [digit_beq_false c 'M' (hdig c hc) (by decide),
            digit_beq_false c 'm' (hdig c hc) (by decide)])]
        simp
      rw [hfm, hfloat]
      dsimp only
      unfold roundScaled
      congr 1
      omega

/-- Witness for C5 (amended) at a concrete digit run: "25K" parses to 25000. -/
theorem parseStatNumber_spec_witness :
    parseStatNumber "25K".data = some 25000 :=
  (parseStatNumber_spec.2.2.2.2.2.2 ['2', '5'] (by decide) (by decide)).1

theorem containsSub_iff_infix (sub l : List Char) :
    containsSub sub l = true ↔ sub <:+: l := by
  induction l with
  | nil =>
    simp only [containsSub, List.isEmpty_iff]
    constructor
    · intro h; simp [h]
    · intro h; simpa using List.eq_nil_of_infix_nil h
  | cons c rest ih =>
    simp only [containsSub, Bool.or_eq_true, ih, List.isPrefixOf_iff_prefix]
    constructor
    · rintro (h | h)
      · exact h.isInfix
      · exact h.trans (List.suffix_cons c rest).isInfix
    · intro h
      rcases List.infix_cons_iff.mp h with h | h
      · exact Or.inl h
      · exact Or.inr h

theorem containsSub_justnow_imp (l : List Char)
    (h : containsSub "now".data l = false) : containsSub "just now".data l = false := by
  by_contra hcon
  rw [Bool.not_eq_false, containsSub_iff_infix] at hcon
  have hnw : ("now".data : List Char) <:+: "just now".data := by decide
  rw [← Bool.not_eq_true, containsSub_iff_infix] at h
  exact h (hnw.trans hcon)

/-- Counterexample to Claim C4 as stated: the source's "just now" test is a
substring search for "now", so unrecognized text that merely contains that
substring — "nowhere", "unknown" — yields the current instant, not the empty
sentinel, even though it matches no Latin or native-script time pattern. -/
theorem parseRelativeTime_counterexample :
    scanEn (trimJs (lowerJs "nowhere".data)) = none ∧
    scanZh "nowhere".data = none ∧
    parseRelativeTime "nowhere".data 7 = some 7 ∧
    parseRelativeTime "unknown".data 7 = some 7 ∧
    parseRelativeTime "nowhere".data 7 ≠ none := by
  refine ⟨by decide, by decide, by decide, by decide, by decide⟩

/-- Claim C4 (amended): parseRelativeTime maps the empty input to the empty
sentinel; any input whose lowercased trimmed text contains the substring
"just now", "now" or "剛剛" — including unrecognized text such as "nowhere" or
"unknown" — to the current instant; a Latin `\d+[smhdw]` pattern to now minus
that many seconds/minutes/hours/days/weeks; a native-script
second/minute/hour/day/week/month pattern to the equivalent subtraction
(month as 30 days); and any input matching none of these tests to the empty
sentinel. Every result is the empty sentinel, the current instant, or now
minus a recognized delta. -/
theorem parseRelativeTime_spec :
    (∀ now : Int, parseRelativeTime [] now = none) ∧
    (∀ now : Int, parseRelativeTime "just now".data now = some now) ∧
    (∀ now : Int, parseRelativeTime "5m".data now = some (now - 300000)) ∧
    (∀ now : Int, parseRelativeTime "3d".data now = some (now - 259200000)) ∧
    (∀ now : Int, parseRelativeTime "3分鐘前".data now = some (now - 180000)) ∧
    (∀ now : Int, parseRelativeTime "hello".data now = none) ∧
    (∀ now : Int, parseRelativeTime "nowhere".data now = some now) ∧
    (∀ now : Int, parseRelativeTime "unknown".data now = some now) ∧
    (∀ (text : List Char) (now : Int) (v : Nat) (u : Char),
      containsSub "now".data (trimJs (lowerJs text)) = false →
      containsSub "剛剛".data (trimJs (lowerJs text)) = false →
      scanEn (trimJs (lowerJs text)) = some (v, u) →
      parseRelativeTime text now = some (now - (v * enUnitMs u : Nat))) ∧
    (∀ (text : List Char) (now : Int) (v : Nat) (u : ZhUnit),
      (trimJs (lowerJs text)).isEmpty = false →
      containsSub "now".data (trimJs (lowerJs text)) = false →
      containsSub "剛剛".data (trimJs (lowerJs text)) = false →
      scanEn (trimJs (lowerJs text)) = none →
      scanZh text = some (v, u) →
      parseRelativeTime text now = some (now - (v * zhUnitMs u : Nat))) ∧
    (∀ (text : List Char) (now : Int),
      containsSub "now".data (trimJs (lowerJs text)) = false →
      containsSub "剛剛".data (trimJs (lowerJs text)) = false →
      scanEn (trimJs (lowerJs text)) = none →
      scanZh text = none →
      parseRelativeTime text now = none) ∧
    (∀ (text : List Char) (now : Int),
      parseRelativeTime text now = none ∨ parseRelativeTime text now = some now ∨
      ∃ d : Nat, parseRelativeTime text now = some (now - (d : Int))) := by
  refine ⟨fun _ => rfl, fun _ => rfl, fun _ => rfl, fun _ => rfl, fun _ => rfl, fun _ => rfl,
    fun _ => rfl, fun _ => rfl, ?_, ?_, ?_, ?_⟩
  · intro text now v u hnow hgg hscan
    have hjn := containsSub_justnow_imp _ hnow
    have hne : (trimJs (lowerJs text)).isEmpty = false := by
      cases hcase : trimJs (lowerJs text) with
      | nil => rw [hcase] at hscan; exact Option.noConfusion hscan
      | cons a l => rfl
    unfold parseRelativeTime
    simp only [hne, hjn, hnow, hgg, hscan, Bool.or_self, Bool.false_eq_true, if_false]
  · intro text now v u hne hnow hgg hen hzh
    have hjn := containsSub_justnow_imp _ hnow
    unfold parseRelativeTime
    simp only [hne, hjn, hnow, hgg, hen, hzh, Bool.or_self, Bool.false_eq_true, if_false]
  · intro text now hnow hgg hen hzh
    have hjn := containsSub_justnow_imp _ hnow
    by_cases hne : (trimJs (lowerJs text)).isEmpty = true
    · unfold parseRelativeTime
      simp only [hne, if_true]
    · rw [Bool.not_eq_true] at hne
      unfold parseRelativeTime
      simp only [hne, hjn, hnow, hgg, hen, hzh, Bool.or_self, Bool.false_eq_true, if_false]
  · intro text now
    unfold parseRelativeTime
    by_cases h1 : (trimJs (lowerJs text)).isEmpty = true
    · simp only [h1, if_true]
      exact Or.inl trivial
    · rw [Bool.not_eq_true] at h1
      by_cases h2 : (containsSub "just now".data (trimJs (lowerJs text)) ||
          containsSub "now".data (trimJs (lowerJs text)) ||
          containsSub "剛剛".data (trimJs (lowerJs text))) = true
      · simp only [h1, h2, Bool.false_eq_true, if_false, if_true]
        exact Or.inr (Or.inl trivial)
      · rw [Bool.not_eq_true] at h2
        simp only [h1, h2, Bool.false_eq_true, if_false]
        cases hen : scanEn (trimJs (lowerJs text)) with
        | some vu =>
          obtain ⟨v, u⟩ := vu
          exact Or.inr (Or.inr ⟨v * enUnitMs u, rfl⟩)
        | none =>
          cases hzh : scanZh text with
          | some vu =>
            obtain ⟨v, u⟩ := vu
            exact Or.inr (Or.inr ⟨v * zhUnitMs u, rfl⟩)
          | none => exact Or.inl rfl

/-- Witness for C4 at a concrete input: "posted 7h ago" parses to now minus 7
hours via the Latin pattern clause. -/
theorem parseRelativeTime_spec_witness :
    parseRelativeTime "posted 7h ago".data 0 = some ((0 : Int) - ((7 * enUnitMs 'h' : Nat) : Int)) :=
  parseRelativeTime_spec.2.2.2.2.2.2.2.2.1 "posted 7h ago".data 0 7 'h'
    (by decide) (by decide) (by decide)

/-- Counterexample to Claim C9 as stated: a document whose only signal is a
"Log in" button is classified as a login wall, yet errorMessage stays at the
"Unknown error" placeholder — login-wall detection never contributes to the
errorMessage derivation in detectPageError. -/
theorem detectPageError_counterexample :
    (detectPageError ⟨"".data, ["Log in".data], false, false, 0, 0⟩).isLoginWall = true ∧
    (detectPageError ⟨"".data, ["Log in".data], false, false, 0, 0⟩).isRateLimited = false ∧
    (detectPageError ⟨"".data, ["Log in".data], false, false, 0, 0⟩).isErrorPage = false ∧
    (detectPageError ⟨"".data, ["Log in".data], false, false, 0, 0⟩).errorMessage =
      "Unknown error" := by
  decide

/-- Claim C9 (amended): detectPageError reports isEmpty exactly when the
post-link count is zero and (there is no main content region with at least one
child or the trimmed body text is shorter than 50 characters); hasMainContent
is true exactly when a main region exists and has at least one child,
independently of emptiness; and the single errorMessage is derived with the
rate-limit match taking precedence, then the first matching generic error
phrase, and otherwise stays "Unknown error" — login-wall detection affects only
the isLoginWall flag, not the message. -/
theorem detectPageError_spec (doc : PageDoc) :
    ((detectPageError doc).isEmpty = true ↔
      doc.postLinkCount = 0 ∧
        (¬ (doc.mainRegion = true ∧ 0 < doc.mainRegionChildren) ∨
          (trimJs doc.bodyText).length < 50)) ∧
    ((detectPageError doc).hasMainContent = true ↔
      doc.mainRegion = true ∧ 0 < doc.mainRegionChildren) ∧
    (detectPageError doc).postLinkCount = doc.postLinkCount ∧
    ((detectPageError doc).isRateLimited = true →
      (detectPageError doc).errorMessage = "Rate limited by Threads") ∧
    ((detectPageError doc).isRateLimited = false →
      (detectPageError doc).isErrorPage = true →
      ∃ p ∈ errorPatterns, (detectPageError doc).errorMessage = p ∧
        containsSub (lowerJs p.data) (lowerJs doc.bodyText) = true) ∧
    ((detectPageError doc).isRateLimited = false →
      (detectPageError doc).isErrorPage = false →
      (detectPageError doc).errorMessage = "Unknown error") := by
  refine ⟨?_, ?_, rfl, ?_, ?_, ?_⟩
  · simp only [detectPageError]
    constructor
    · intro h
      simp only [Bool.and_eq_true, decide_eq_true_eq, Bool.or_eq_true,
        Bool.not_eq_true'] at h
      obtain ⟨h1, h2⟩ := h
      refine ⟨h1, ?_⟩
      rcases h2 with h2 | h2
      · left
        intro ⟨hm, hc⟩
        rw [hm] at h2
        simp only [Bool.true_and] at h2
        exact absurd hc (of_decide_eq_false h2)
      · right
        simpa using h2
    · intro ⟨h1, h2⟩
      simp only [Bool.and_eq_true, decide_eq_true_eq, Bool.or_eq_true,
        Bool.not_eq_true']
      refine ⟨h1, ?_⟩
      rcases h2 with h2 | h2
      · left
        by_cases hm : doc.mainRegion = true
        · rw [hm]
          simp only [Bool.true_and, Bool.not_eq_true']
          by_contra hc
          rw [Bool.not_eq_false, decide_eq_true_eq] at hc
          exact h2 ⟨hm, hc⟩
        · rw [Bool.not_eq_true] at hm
          simp [hm]
      · right
        simpa using h2
  · simp [detectPageError, Bool.and_eq_true, decide_eq_true_eq]
  · intro hr
    simp only [detectPageError] at hr ⊢
    rw [if_pos hr]
  · intro hr he
    simp only [detectPageError] at hr he ⊢
    rw [if_neg (by simp [hr])]
    obtain ⟨p, hp, hpt⟩ := List.any_eq_true.mp he
    cases hfind : errorPatterns.find?
        (fun q => containsSub (lowerJs q.data) (lowerJs doc.bodyText)) with
    | none =>
      rw [List.find?_eq_none] at hfind
      exact absurd hpt (by simpa using hfind p hp)
    | some q =>
      refine ⟨q, List.mem_of_find?_eq_some hfind, rfl, ?_⟩
      simpa using List.find?_some hfind
  · intro hr he
    simp only [detectPageError] at hr he ⊢
    rw [if_neg (by simp [hr])]
    cases hfind : errorPatterns.find?
        (fun q => containsSub (lowerJs q.data) (lowerJs doc.bodyText)) with
    | none => rfl
    | some q =>
      exfalso
      have hqm := List.mem_of_find?_eq_some hfind
      have hqt := List.find?_some hfind
      have : errorPatterns.any
          (fun q => containsSub (lowerJs q.data) (lowerJs doc.bodyText)) = true :=
        List.any_eq_true.mpr ⟨q, hqm, hqt⟩
      rw [this] at he
      exact absurd he (by simp)

/-- Witness for C9 (amended) at a concrete document: a body containing an error
phrase and no rate-limit phrase yields that phrase as errorMessage. -/
theorem detectPageError_spec_witness :
    ∃ p ∈ errorPatterns,
      (detectPageError ⟨"Oops: Something went WRONG, sorry for the trouble".data,
        [], false, true, 3, 0⟩).errorMessage = p ∧
      containsSub (lowerJs p.data)
        (lowerJs "Oops: Something went WRONG, sorry for the trouble".data) = true :=
  (detectPageError_spec ⟨"Oops: Something went WRONG, sorry for the trouble".data,
    [], false, true, 3, 0⟩).2.2.2.2.1 (by decide) (by decide)

theorem matchesBareTime_aa (l : List Char) : matchesBareTime ('a' :: 'a' :: l) = false := by
  unfold matchesBareTime
  rw [show ('a' :: 'a' :: l).dropWhile Char.isDigit = 'a' :: 'a' :: l from by
    rw [List.dropWhile_cons, show ('a'.isDigit : Bool) = false from rfl]
    rw [if_neg (by decide)]]

theorem matchesBareDate_aa (l : List Char) : matchesBareDate ('a' :: 'a' :: l) = false := by
  unfold matchesBareDate
  rw [show ('a' :: 'a' :: l).dropWhile Char.isDigit = 'a' :: 'a' :: l from by
    rw [List.dropWhile_cons, show ('a'.isDigit : Bool) = false from rfl]
    rw [if_neg (by decide)]]
  split
  · next r1 heq => injection heq with h1 h2; exact absurd h1 (by decide)
  · rfl

theorem replicate_2001_eq : List.replicate 2001 'a' = 'a' :: 'a' :: List.replicate 1999 'a' := by
  rw [show (2001 : Nat) = 1999 + 1 + 1 from rfl, List.replicate_succ, List.replicate_succ]

/-- Counterexample to Claim C10 as stated: the nested quotedPost is itself a
PostRecord produced by parsePostFromElement, and its content
(`data.quoted.content || ''`) is stored without the slice(0, 2000) cap — a
2001-character quoted text survives in full. -/
theorem quotedContent_counterexample :
    2000 < (quotedContentOf [List.replicate 2001 'a']).length := by
  rw [replicate_2001_eq]
  unfold quotedContentOf
  rw [List.find?_cons_of_pos _ (by
    try dsimp only
    rw [matchesBareTime_aa, matchesBareDate_aa]
    rw [show (!false : Bool) = true from rfl, Bool.and_true, Bool.and_true]
    rw [decide_eq_true_eq, List.length_cons, List.length_cons, List.length_replicate]
    norm_num)]
  show 2000 < ('a' :: 'a' :: List.replicate 1999 'a').length
  rw [List.length_cons, List.length_cons, List.length_replicate]
  norm_num

theorem dropWhile_replicate_x (n : Nat) (p : Char → Bool) (h : p 'x' = false) :
    (List.replicate n 'x').dropWhile p = List.replicate n 'x' := by
  cases n with
  | zero => rfl
  | succ m =>
    rw [List.replicate_succ, List.dropWhile_cons, h]
    rw [if_neg (by decide), ← List.replicate_succ]

theorem trimRightJs_replicate_x (n : Nat) :
    trimRightJs (List.replicate n 'x') = List.replicate n 'x' := by
  unfold trimRightJs
  rw [List.reverse_replicate, dropWhile_replicate_x n isJsWs (by decide),
    List.reverse_replicate]

theorem not_suffix_replicate_x (p : List Char) (c : Char) (hc : c ∈ p) (hne : c ≠ 'x')
    (n : Nat) : p.isSuffixOf (List.replicate n 'x') = false := by
  by_contra hcon
  rw [Bool.not_eq_false, List.isSuffixOf_iff_suffix] at hcon
  exact hne (List.eq_of_mem_replicate (hcon.subset hc))

theorem lowerJs_replicate_x (n : Nat) :
    lowerJs (List.replicate n 'x') = List.replicate n 'x' := by
  unfold lowerJs
  rw [List.map_replicate]
  rfl

theorem stripTrailingPhrase_replicate_x (phrases : List (List Char)) (n : Nat)
    (h : ∀ q ∈ phrases, ((lowerJs q).isSuffixOf (lowerJs (List.replicate n 'x'))) = false) :
    stripTrailingPhrase phrases (List.replicate n 'x') = List.replicate n 'x' := by
  unfold stripTrailingPhrase
  dsimp only
  rw [trimRightJs_replicate_x]
  rw [List.find?_eq_none.mpr (fun q hq hcon => by
    have hcon2 : (lowerJs q).isSuffixOf (lowerJs (List.replicate n 'x')) = true := hcon
    rw [h q hq] at hcon2
    exact Bool.false_ne_true hcon2)]

theorem assembleContent_replicate_x :
    assembleContent [List.replicate 3000 'x'] = List.replicate 3000 'x' := by
  unfold assembleContent
  rw [if_pos (show 0 < ([List.replicate 3000 'x'] : List (List Char)).length from by
    rw [List.length_singleton]
    norm_num)]
  rw [show joinSep "\n\n".data [List.replicate 3000 'x'] = List.replicate 3000 'x' from rfl]
  dsimp only
  rw [stripTrailingPhrase_replicate_x LEARN_MORE_PHRASES 3000 (by
    intro q hq
    rw [lowerJs_replicate_x]
    simp only [LEARN_MORE_PHRASES, List.mem_cons, List.not_mem_nil, or_false] at hq
    rcases hq with hq | hq <;> subst hq
    · exact not_suffix_replicate_x _ 'l' (by decide) (by decide) 3000
    · exact not_suffix_replicate_x _ '了' (by decide) (by decide) 3000)]
  rw [stripTrailingPhrase_replicate_x TRANSLATE_PHRASES 3000 (by
    intro q hq
    rw [lowerJs_replicate_x]
    simp only [TRANSLATE_PHRASES, List.mem_cons, List.not_mem_nil, or_false] at hq
    rcases hq with hq | hq <;> subst hq
    · exact not_suffix_replicate_x _ 't' (by decide) (by decide) 3000
    · exact not_suffix_replicate_x _ '翻' (by decide) (by decide) 3000)]
  unfold trimJs trimLeftJs
  rw [dropWhile_replicate_x 3000 isJsWs (by decide)]
  exact trimRightJs_replicate_x 3000

/-- Claim C10 (amended): the content field of every top-level PostRecord
assembled by parsePostFromElement is truncated to its first 2000 characters
(`content.slice(0, 2000)`), so its length never exceeds 2000 — but the nested
quotedPost content is stored without this cap. -/
theorem finalPostContent_spec :
    (∀ texts : List (List Char), (finalPostContent texts).length ≤ 2000) ∧
    (∀ texts : List (List Char), 2000 < (assembleContent texts).length →
      finalPostContent texts = (assembleContent texts).take 2000 ∧
      (finalPostContent texts).length = 2000) := by
  constructor
  · intro texts
    simp only [finalPostContent]
    split
    · simp
    · simpa using List.length_take_le 2000 (assembleContent texts)
  · intro texts h
    have hne : (assembleContent texts).isEmpty = false := by
      cases hcase : assembleContent texts with
      | nil => rw [hcase] at h; simp at h
      | cons a l => rfl
    simp only [finalPostContent, hne, Bool.false_eq_true, if_false]
    refine ⟨trivial, ?_⟩
    simp only [List.length_take]
    omega

/-- Witness for C10 (amended) at a concrete over-long text: 3000 characters
are cut to exactly 2000. -/
theorem finalPostContent_spec_witness :
    (finalPostContent [List.replicate 3000 'x']).length = 2000 :=
  (finalPostContent_spec.2 [List.replicate 3000 'x']
    (by rw [assembleContent_replicate_x, List.length_replicate]; norm_num)).2

theorem batchStep_measure {c : Nat} {s s' : BatchState} (h : BatchStep c s s') :
    batchMeasure s' < batchMeasure s := by
  cases h with
  | start t q r d hlen =>
    simp only [batchMeasure, List.length_cons]
    omega
  | finish t q r d hmem =>
    simp only [batchMeasure, List.length_cons]
    have h1 := List.length_erase_of_mem hmem
    have h2 : 0 < r.length := List.length_pos.mpr (List.ne_nil_of_mem hmem)
    omega

theorem batchStep_perm {c : Nat} {s s' : BatchState} (h : BatchStep c s s') :
    (s'.queue ++ s'.running ++ s'.done).Perm (s.queue ++ s.running ++ s.done) := by
  cases h with
  | start t q r d hlen =>
    exact List.Perm.append_right d List.perm_middle
  | finish t q r d hmem =>
    have h1 : r.Perm (t :: r.erase t) := List.perm_cons_erase hmem
    rw [List.append_assoc, List.append_assoc]
    refine List.Perm.append_left q ?_
    exact List.perm_middle.trans ((h1.append_right d).symm)

theorem batchReach_perm {c : Nat} {tasks : List BatchTask} {s : BatchState}
    (h : Relation.ReflTransGen (BatchStep c) (batchInit tasks) s) :
    (s.queue ++ s.running ++ s.done).Perm tasks := by
  induction h with
  | refl => simp [batchInit]
  | tail hab hbc ih => exact (batchStep_perm hbc).trans ih

theorem batchStep_progress {c : Nat} (hc : 0 < c) (s : BatchState)
    (hterm : ¬ batchTerminal s) : ∃ s', BatchStep c s s' := by
  obtain ⟨q, r, d⟩ := s
  rcases r with _ | ⟨t, r2⟩
  · rcases q with _ | ⟨t, q2⟩
    · exact absurd ⟨rfl, rfl⟩ hterm
    · exact ⟨_, BatchStep.start t q2 [] d (by simpa using hc)⟩
  · exact ⟨_, BatchStep.finish t q (t :: r2) d (by simp)⟩

theorem countP_not_sum (l : List BatchTask) :
    l.countP (fun t => t.succeeds) + l.countP (fun t => !t.succeeds) = l.length := by
  induction l with
  | nil => rfl
  | cons a l ih =>
    rw [List.countP_cons, List.countP_cons]
    cases h : a.succeeds <;> simp [h] <;> omega

/-- Claim C3: from the initial state with the full task list, any terminal
state reachable under the worker-pool semantics with positive concurrency has
its completed list a permutation of the task list (every task attempted exactly
once, none skipped, none run twice), success + fail = total, exactly one
{taskName, error} entry per failed task, and the failed tasks never prevent
the rest: moreover every non-terminal state can step (one task's failure never
blocks the scheduler) and every step decreases a finite measure (the scheduler
always completes). -/
theorem runBatch_spec (tasks : List BatchTask) (c : Nat) (s : BatchState)
    (hc : 0 < c)
    (hreach : Relation.ReflTransGen (BatchStep c) (batchInit tasks) s)
    (hterm : batchTerminal s) :
    s.done.Perm tasks ∧
    (∀ t : BatchTask, s.done.count t = tasks.count t) ∧
    successCount s.done + failCount s.done = tasks.length ∧
    successCount s.done = successCount tasks ∧
    failCount s.done = failCount tasks ∧
    (batchErrors s.done).Perm (batchErrors tasks) ∧
    (batchErrors s.done).length = failCount tasks ∧
    (∀ s1 s2 : BatchState, BatchStep c s1 s2 → batchMeasure s2 < batchMeasure s1) ∧
    (∀ s1 : BatchState, ¬ batchTerminal s1 → ∃ s2, BatchStep c s1 s2) := by
  have hdone : s.done.Perm tasks := by
    have h := batchReach_perm hreach
    obtain ⟨hq, hr⟩ := hterm
    rw [hq, hr] at h
    simpa using h
  have herrlen : (batchErrors s.done).length = failCount s.done := by
    rw [batchErrors, List.length_map, failCount, List.countP_eq_length_filter]
  refine ⟨hdone, fun t => hdone.count_eq t, ?_, hdone.countP_eq _, hdone.countP_eq _,
    (hdone.filter _).map _, ?_, fun s1 s2 h => batchStep_measure h,
    fun s1 h => batchStep_progress hc s1 h⟩
  · rw [successCount, failCount, countP_not_sum, hdone.length_eq]
  · rw [herrlen, failCount, failCount, hdone.countP_eq]

/-- Witness for C3 at a concrete two-task batch with concurrency 2 (one task
always fails): after an explicit full run of the scheduler, success + fail
equals the total and the failure list has exactly the failing task's entry. -/
theorem runBatch_spec_witness :
    successCount [taskFailB, taskOkA] + failCount [taskFailB, taskOkA] =
      ([taskOkA, taskFailB] : List BatchTask).length ∧
    (batchErrors [taskFailB, taskOkA]).length = failCount [taskOkA, taskFailB] := by
  have h1 : BatchStep 2 ⟨[taskOkA, taskFailB], [], []⟩ ⟨[taskFailB], [taskOkA], []⟩ :=
    BatchStep.start taskOkA [taskFailB] [] [] (by norm_num)
  have h2 : BatchStep 2 ⟨[taskFailB], [taskOkA], []⟩ ⟨[], [taskFailB, taskOkA], []⟩ :=
    BatchStep.start taskFailB [] [taskOkA] [] (by norm_num)
  have h3 : BatchStep 2 ⟨[], [taskFailB, taskOkA], []⟩ ⟨[], [taskFailB], [taskOkA]⟩ := by
    have h := BatchStep.finish (c := 2) taskOkA [] [taskFailB, taskOkA] [] (by simp)
    have herase : [taskFailB, taskOkA].erase taskOkA = [taskFailB] := by decide
    rw [herase] at h
    exact h
  have h4 : BatchStep 2 ⟨[], [taskFailB], [taskOkA]⟩ ⟨[], [], [taskFailB, taskOkA]⟩ := by
    have h := BatchStep.finish (c := 2) taskFailB [] [taskFailB] [taskOkA] (by simp)
    have herase : [taskFailB].erase taskFailB = [] := by decide
    rw [herase] at h
    exact h
  have hreach : Relation.ReflTransGen (BatchStep 2)
      (batchInit [taskOkA, taskFailB]) ⟨[], [], [taskFailB, taskOkA]⟩ :=
    Relation.ReflTransGen.head h1 (Relation.ReflTransGen.head h2
      (Relation.ReflTransGen.head h3 (Relation.ReflTransGen.head h4
        Relation.ReflTransGen.refl)))
  have hmain := runBatch_spec [taskOkA, taskFailB] 2 ⟨[], [], [taskFailB, taskOkA]⟩
    (by norm_num) hreach ⟨rfl, rfl⟩
  exact ⟨hmain.2.2.1, hmain.2.2.2.2.2.2.1⟩
